import Mathlib

/-
Verification of the conversion core in rpy2/robjects/__init__.py.

The Python source is shallowly embedded as follows:
- A Python dict (the NameClassMap table) becomes a function String -> Option Cls;
  an absent key is none.  A Python dict passed as the override dictionary is
  embedded as a List (String × Cls) of its items in iteration order.
- Python classes are an abstract type Cls together with a boolean relation
  sub c d embedding issubclass(c, d).
- Fallible operations (KeyError, assert failures, raised ValueError) return
  Except values instead of raising.
-/

set_option maxRecDepth 4000

/-- Python exception kinds raised by the embedded operations. -/
inductive PyErr where
  | assertionError
  | keyError
  | typeError
deriving DecidableEq, Repr

/-- The (exc_type, exc_val, exc_tb) triple a context manager exit receives:
either no exception, or some exception raised by the body. -/
inductive ExcInfo where
  | noExc
  | excRaised
deriving DecidableEq, Repr

/-- NameClassMap (robjects/__init__.py lines 222-261): maps a name (an R class
name) to a Python class, with a default class held outside the table. -/
structure NameClassMap (Cls : Type) where
  _default : Cls
  _map : String → Option Cls

/-- `key in self._map` (NameClassMap.__contains__). -/
def NameClassMap.containsKey {Cls : Type} (m : NameClassMap Cls) (k : String) : Bool :=
  (m._map k).isSome

/-- `self._map[key]` (NameClassMap.__getitem__); raises KeyError when absent. -/
def NameClassMap.getitem {Cls : Type} (m : NameClassMap Cls) (k : String) : Except PyErr Cls :=
  match m._map k with
  | some v => Except.ok v
  | none => Except.error PyErr.keyError

/-- Pointwise update of the table at one key (the effect of a dict store or
delete at that key; `none` deletes). -/
def NameClassMap.setkey {Cls : Type} (m : NameClassMap Cls) (k : String) (w : Option Cls) :
    NameClassMap Cls :=
  { m with _map := fun q => if q = k then w else m._map q }

/-- NameClassMap.__setitem__: `assert issubclass(value, self._default)` then
store.  A failing assert raises AssertionError. -/
def NameClassMap.setitem {Cls : Type} (sub : Cls → Cls → Bool) (m : NameClassMap Cls)
    (k : String) (v : Cls) : Except PyErr (NameClassMap Cls) :=
  if sub v m._default then Except.ok (m.setkey k (some v))
  else Except.error PyErr.assertionError

/-- NameClassMap.__delitem__: `del self._map[key]`; raises KeyError when absent. -/
def NameClassMap.delitem {Cls : Type} (m : NameClassMap Cls) (k : String) :
    Except PyErr (NameClassMap Cls) :=
  match m._map k with
  | some _ => Except.ok (m.setkey k none)
  | none => Except.error PyErr.keyError

/-- NameClassMap.find_key: first key of `keys` present in the table, else None. -/
def NameClassMap.find_key {Cls : Type} (m : NameClassMap Cls) (keys : List String) :
    Option String :=
  match keys with
  | [] => none
  | k :: rest => if (m._map k).isSome then some k else m.find_key rest

/-- NameClassMap.find: `k = self.find_key(keys); if k: cls = self._map[k]
else: cls = self._default`.  Note the Python truthiness test `if k:`, which is
false both for None and for the empty string. -/
def NameClassMap.find {Cls : Type} (m : NameClassMap Cls) (keys : List String) :
    Except PyErr Cls :=
  match m.find_key keys with
  | some k => if k ≠ "" then m.getitem k else Except.ok m._default
  | none => Except.ok m._default

/-- The mutable state a NameClassMapContext instance sees: the target resolver
(`self._nameclassmap`) and its own `self._keep` list of
(key, restore, orig_v) records. -/
structure CtxState (Cls : Type) where
  nameclassmap : NameClassMap Cls
  keep : List (String × Bool × Option Cls)

/-- The loop body of NameClassMapContext.__enter__: for each (k, v) of the
override dict, append (k, k in map, map value at k or None) to keep, then
`nameclassmap[k] = v`. -/
def NameClassMapContext.enterLoop {Cls : Type} (sub : Cls → Cls → Bool)
    (d : List (String × Cls)) (m : NameClassMap Cls)
    (keep : List (String × Bool × Option Cls)) :
    Except PyErr (NameClassMap Cls × List (String × Bool × Option Cls)) :=
  match d with
  | [] => Except.ok (m, keep)
  | (k, v) :: rest =>
    let entry : String × Bool × Option Cls := (k, m.containsKey k, m._map k)
    match m.setitem sub k v with
    | Except.error e => Except.error e
    | Except.ok m2 => NameClassMapContext.enterLoop sub rest m2 (keep ++ [entry])

/-- NameClassMapContext.__enter__ on an instance whose dict is `d` and whose
current state is `st`. -/
def NameClassMapContext.enter {Cls : Type} (sub : Cls → Cls → Bool)
    (d : List (String × Cls)) (st : CtxState Cls) : Except PyErr (CtxState Cls) :=
  match NameClassMapContext.enterLoop sub d st.nameclassmap st.keep with
  | Except.error e => Except.error e
  | Except.ok (m, keep) => Except.ok ⟨m, keep⟩

/-- The loop body of NameClassMapContext.__exit__: for each recorded
(k, restore, orig_v), either `nameclassmap[k] = orig_v` or `del nameclassmap[k]`.
The (restore = true, orig_v = None) combination would make Python call
issubclass(None, ...), a TypeError; __enter__ never records it. -/
def NameClassMapContext.exitLoop {Cls : Type} (sub : Cls → Cls → Bool)
    (keep : List (String × Bool × Option Cls)) (m : NameClassMap Cls) :
    Except PyErr (NameClassMap Cls) :=
  match keep with
  | [] => Except.ok m
  | (k, restore, orig) :: rest =>
    let step : Except PyErr (NameClassMap Cls) :=
      match restore, orig with
      | true, some v => m.setitem sub k v
      | true, none => Except.error PyErr.typeError
      | false, _ => m.delitem k
    match step with
    | Except.error e => Except.error e
    | Except.ok m2 => NameClassMapContext.exitLoop sub rest m2

/-- NameClassMapContext.__exit__: runs the restore loop over `self._keep` and
returns False.  The exception information is ignored (restoration is
unconditional), and `self._keep` is left untouched by the source. -/
def NameClassMapContext.exitCM {Cls : Type} (sub : Cls → Cls → Bool) (exc : ExcInfo)
    (st : CtxState Cls) : Except PyErr (CtxState Cls × Bool) :=
  match exc, NameClassMapContext.exitLoop sub st.keep st.nameclassmap with
  | _, Except.error e => Except.error e
  | _, Except.ok m => Except.ok (⟨m, st.keep⟩, false)

/-- The invariant NameClassMap.__setitem__ maintains: every stored class is an
issubclass of the instance default. -/
def MapInv {Cls : Type} (sub : Cls → Cls → Bool) (m : NameClassMap Cls) : Prop :=
  ∀ k c, m._map k = some c → sub c m._default = true

/-- A small concrete universe of Python classes for concrete runs: rs4Default
plays RS4 (a NameClassMap default); clsX, clsY, clsW, clsZ, clsC are
subclasses of it; outsider is unrelated to it. -/
inductive RCls where
  | rs4Default
  | clsX
  | clsY
  | clsW
  | clsZ
  | clsC
  | outsider
deriving DecidableEq, Repr, Inhabited

/-- issubclass on the concrete universe: every class is a subclass of itself,
and every class except outsider is a subclass of rs4Default. -/
def subC (c d : RCls) : Bool :=
  c = d || (d = RCls.rs4Default && c ≠ RCls.outsider)

/-- Unwrap an Except with a fallback value (only used to name the result of a
computation that is separately proved to be `Except.ok`). -/
def exOk {e a : Type} (x : Except e a) (dflt : a) : a :=
  match x with
  | Except.ok v => v
  | Except.error _ => dflt

/-- Whether an Except value is an error. -/
def exIsError {e a : Type} (x : Except e a) : Bool :=
  match x with
  | Except.error _ => true
  | Except.ok _ => false

/-- Whether an Except value is the KeyError. -/
def exIsKeyError {a : Type} (x : Except PyErr a) : Bool :=
  match x with
  | Except.error PyErr.keyError => true
  | _ => false

deriving instance DecidableEq for Except

/-- The R storage tags (rinterface.RTYPES values) that sexpvector_to_ro
branches on; `otherTag` stands for any tag with no branch (cls = None). -/
inductive RTag where
  | INTSXP
  | REALSXP
  | LGLSXP
  | STRSXP
  | VECSXP
  | LISTSXP
  | LANGSXP
  | CPLXSXP
  | RAWSXP
  | otherTag
deriving DecidableEq, Repr

/-- The robjects wrapper classes sexpvector_to_ro can choose. -/
inductive ROCls where
  | DataFrame
  | FactorVector
  | POSIXctCls
  | IntVector
  | IntMatrix
  | IntArray
  | FloatVector
  | FloatMatrix
  | FloatArray
  | BoolVector
  | BoolMatrix
  | BoolArray
  | StrVector
  | StrMatrix
  | StrArray
  | ListVector
  | PairlistVector
  | FormulaCls
  | LangVector
  | ComplexVector
  | ComplexMatrix
  | ComplexArray
  | ByteVector
  | ByteMatrix
  | ByteArray
deriving DecidableEq, Repr

/-- An inbound R vector as sexpvector_to_ro observes it: its storage tag
(obj.typeof), its R class attribute (obj.rclass), and its dim attribute;
`dim = none` means `obj.do_slot("dim")` raises. -/
structure SexpVectorModel where
  typeof : RTag
  rclass : List String
  dim : Option (List Nat)
deriving DecidableEq, Repr

/-- Modelled from the spec: vectors.POSIXct.isrinstance (the vectors module is
not under src).  Per the spec a real-tagged value whose class names indicate
the date-time representation is promoted to the date-time wrapper; the class
name R uses for it is POSIXct. -/
def isPOSIXct (obj : SexpVectorModel) : Bool :=
  obj.rclass.contains "POSIXct"

/-- _vector_matrix_array (robjects/__init__.py lines 88-97): try to read the
dim slot; present with length 2 gives the matrix class, present with any other
length gives the array class, and a raising read gives the vector class. -/
def vectorMatrixArray (obj : SexpVectorModel) (vector_cls matrix_cls array_cls : ROCls) :
    ROCls :=
  match obj.dim with
  | some dim => if dim.length = 2 then matrix_cls else array_cls
  | none => vector_cls

/-- sexpvector_to_ro (robjects/__init__.py lines 100-150) for values that pass
the SexpVector isinstance check; `none` embeds the `cls is None` fall-through
that returns the object unchanged. -/
def sexpvector_to_ro (obj : SexpVectorModel) : Option ROCls :=
  let rcls := obj.rclass
  if rcls.contains "data.frame" then some ROCls.DataFrame
  else if obj.typeof = RTag.INTSXP then
    (if rcls.contains "factor" then some ROCls.FactorVector
     else some (vectorMatrixArray obj ROCls.IntVector ROCls.IntMatrix ROCls.IntArray))
  else if obj.typeof = RTag.REALSXP then
    (if isPOSIXct obj then some ROCls.POSIXctCls
     else some (vectorMatrixArray obj ROCls.FloatVector ROCls.FloatMatrix ROCls.FloatArray))
  else if obj.typeof = RTag.LGLSXP then
    some (vectorMatrixArray obj ROCls.BoolVector ROCls.BoolMatrix ROCls.BoolArray)
  else if obj.typeof = RTag.STRSXP then
    some (vectorMatrixArray obj ROCls.StrVector ROCls.StrMatrix ROCls.StrArray)
  else if obj.typeof = RTag.VECSXP then some ROCls.ListVector
  else if obj.typeof = RTag.LISTSXP then some ROCls.PairlistVector
  else if obj.typeof = RTag.LANGSXP then
    (if rcls.contains "formula" then some ROCls.FormulaCls else some ROCls.LangVector)
  else if obj.typeof = RTag.CPLXSXP then
    some (vectorMatrixArray obj ROCls.ComplexVector ROCls.ComplexMatrix ROCls.ComplexArray)
  else if obj.typeof = RTag.RAWSXP then
    some (vectorMatrixArray obj ROCls.ByteVector ROCls.ByteMatrix ROCls.ByteArray)
  else none

/-- The (vector, matrix, array) class triple sexpvector_to_ro passes to
_vector_matrix_array for each vector-like storage tag that reaches the generic
shape rule. -/
def vecTriple (t : RTag) : Option (ROCls × ROCls × ROCls) :=
  match t with
  | RTag.INTSXP => some (ROCls.IntVector, ROCls.IntMatrix, ROCls.IntArray)
  | RTag.REALSXP => some (ROCls.FloatVector, ROCls.FloatMatrix, ROCls.FloatArray)
  | RTag.LGLSXP => some (ROCls.BoolVector, ROCls.BoolMatrix, ROCls.BoolArray)
  | RTag.STRSXP => some (ROCls.StrVector, ROCls.StrMatrix, ROCls.StrArray)
  | RTag.CPLXSXP => some (ROCls.ComplexVector, ROCls.ComplexMatrix, ROCls.ComplexArray)
  | RTag.RAWSXP => some (ROCls.ByteVector, ROCls.ByteMatrix, ROCls.ByteArray)
  | _ => none

/-- The Python element types sequence_to_vector can meet; `otherType` stands
for any type outside TYPEORDER.  The function reads only type(elt), so an
element is embedded as its type. -/
inductive PyType where
  | boolT
  | intT
  | floatT
  | complexT
  | strT
  | otherType
deriving DecidableEq, Repr

/-- TYPEORDER (robjects/__init__.py lines 156-160): type priority and the
corresponding vector class. -/
def TYPEORDER (t : PyType) : Option (Nat × ROCls) :=
  match t with
  | PyType.boolT => some (0, ROCls.BoolVector)
  | PyType.intT => some (1, ROCls.IntVector)
  | PyType.floatT => some (2, ROCls.FloatVector)
  | PyType.complexT => some (3, ROCls.ComplexVector)
  | PyType.strT => some (4, ROCls.StrVector)
  | PyType.otherType => none

/-- The for-loop of sequence_to_vector: carries curr_typeorder (initially -1)
and curr_type (initially unbound, embedded as none), raising ValueError at the
first element whose type is not in TYPEORDER. -/
def stvLoop (lst : List PyType) (curr_typeorder : Int) (curr_type : Option ROCls) :
    Except String (Int × Option ROCls) :=
  match lst with
  | [] => Except.ok (curr_typeorder, curr_type)
  | t :: rest =>
    match TYPEORDER t with
    | some pc =>
      if (pc.1 : Int) > curr_typeorder then stvLoop rest (pc.1 : Int) (some pc.2)
      else stvLoop rest curr_typeorder curr_type
    | none => Except.error "The element in the list has a type that cannot be handled."

/-- sequence_to_vector (robjects/__init__.py lines 163-179): run the loop, then
raise ValueError when the loop index stayed None (empty sequence), else build
the vector with the inferred class.  An unbound curr_type after a non-empty
run is a NameError; it is unreachable. -/
def sequence_to_vector (lst : List PyType) : Except String ROCls :=
  match lst with
  | [] =>
    Except.error "The parameter lst is an empty sequence. The type of the corresponding R vector cannot be determined."
  | _ :: _ =>
    match stvLoop lst (-1) none with
    | Except.error e => Except.error e
    | Except.ok (_, some c) => Except.ok c
    | Except.ok (_, none) => Except.error "NameError: curr_type referenced before assignment"

/-- The TYPEORDER priority of a type, with -1 for unregistered types. -/
def prioOf (t : PyType) : Int :=
  match TYPEORDER t with
  | some pc => (pc.1 : Int)
  | none => -1

/-- The TYPEORDER vector class of a type (meaningful only for registered
types). -/
def clsOf (t : PyType) : ROCls :=
  match TYPEORDER t with
  | some pc => pc.2
  | none => ROCls.BoolVector

/-- The type descriptors used as rpy2py registration keys in
robjects/__init__.py; SexpOtherT stands for a Sexp subtype with no specific
registration of its own. -/
inductive TypeDesc where
  | RObjectT
  | SexpVectorT
  | SexpClosureT
  | SexpEnvironmentT
  | SexpS4T
  | SexpExtPtrT
  | NULLTypeT
  | objectT
  | SexpOtherT
deriving DecidableEq, Repr

/-- The inbound (rpy2py) handlers defined in robjects/__init__.py, one
constructor per registered function, in source order. -/
inductive HandlerId where
  | rpy2py_robject
  | sexpvector_to_ro_handler
  | rpy2py_sexpclosure
  | rpy2py_sexpenvironment
  | rpy2py_sexps4
  | rpy2py_sexpextptr
  | rpy2py_object
  | rpy2py_null
  | underscore_object
deriving DecidableEq, Repr

/-- The rpy2py registrations of robjects/__init__.py in module execution
order.  Note the two registrations for `object`: _rpy2py_object at lines
310-312 and the identity handler `_` at lines 393-395. -/
def rpy2pyRegistrations : List (TypeDesc × HandlerId) :=
  [(TypeDesc.RObjectT, HandlerId.rpy2py_robject),
   (TypeDesc.SexpVectorT, HandlerId.sexpvector_to_ro_handler),
   (TypeDesc.SexpClosureT, HandlerId.rpy2py_sexpclosure),
   (TypeDesc.SexpEnvironmentT, HandlerId.rpy2py_sexpenvironment),
   (TypeDesc.SexpS4T, HandlerId.rpy2py_sexps4),
   (TypeDesc.SexpExtPtrT, HandlerId.rpy2py_sexpextptr),
   (TypeDesc.objectT, HandlerId.rpy2py_object),
   (TypeDesc.NULLTypeT, HandlerId.rpy2py_null),
   (TypeDesc.objectT, HandlerId.underscore_object)]

/-- Modelled from the spec: the ConversionRegistry dispatch-table builder (the
conversion module is not under src).  Within a table each type descriptor maps
to at most one handler; re-registration overwrites, last registration wins. -/
def registerAll (regs : List (TypeDesc × HandlerId)) : TypeDesc → Option HandlerId :=
  regs.foldl (fun acc th => fun q => if q = th.1 then some th.2 else acc q) (fun _ => none)

/-- The effective inbound dispatch table of default_converter.rpy2py after the
module body has run. -/
def rpy2pyTable : TypeDesc → Option HandlerId :=
  registerAll rpy2pyRegistrations

/-- Modelled from the spec: single most-specific-match resolution (the
conversion module is not under src).  The value's type chain is walked most
specific first, ending at the universal object type, and the first registered
handler wins. -/
def dispatchInbound (table : TypeDesc → Option HandlerId) (mro : List TypeDesc) :
    Option HandlerId :=
  match mro with
  | [] => none
  | t :: rest =>
    match table t with
    | some h => some h
    | none => dispatchInbound table rest

/-- A raw inbound value: either an unrecognized foreign value or an RObject
wrapper around one. -/
inductive PyObj where
  | raw (n : Nat)
  | robjectWrap (o : PyObj)
deriving DecidableEq, Repr

/-- The action of the two handlers registered for `object`:
_rpy2py_object (lines 310-312) wraps in RObject, the handler `_` (lines
393-395) returns its argument unchanged.  The remaining handlers construct
wrapper classes defined outside src and are not applied by any claim. -/
def applyObjectHandler (h : Option HandlerId) (o : PyObj) : Option PyObj :=
  match h with
  | some HandlerId.rpy2py_object => some (PyObj.robjectWrap o)
  | some HandlerId.underscore_object => some o
  | _ => none

/-- Concrete scenario for C1: resolver initially maps A to clsX; the override
dict installs clsY over A and a fresh key B. -/
def c1_st0 : CtxState RCls :=
  ⟨⟨RCls.rs4Default, fun q => if q = "A" then some RCls.clsX else none⟩, []⟩

/-- The C1 override dictionary. -/
def c1_d : List (String × RCls) := [("A", RCls.clsY), ("B", RCls.clsZ)]

/-- The C1 state after __enter__. -/
def c1_st1 : CtxState RCls :=
  exOk (NameClassMapContext.enter subC c1_d c1_st0) c1_st0

/-- Concrete scenario for C2: resolver initially maps A to clsX. -/
def c2_m0 : NameClassMap RCls :=
  ⟨RCls.rs4Default, fun q => if q = "A" then some RCls.clsX else none⟩

/-- Concrete scenario for C5: a resolver whose table maps the empty string to
clsC. -/
def c5_m : NameClassMap RCls :=
  ⟨RCls.rs4Default, fun q => if q = "" then some RCls.clsC else none⟩

/-- Concrete scenario for C9: an initially empty resolver and one context
instance whose dict installs the fresh key B; the same instance is used
twice. -/
def c9_st0 : CtxState RCls :=
  ⟨⟨RCls.rs4Default, fun _ => none⟩, []⟩

/-- The C9 override dictionary. -/
def c9_d : List (String × RCls) := [("B", RCls.clsZ)]

/-- C9: the instance state after the first use (enter then exit). -/
def c9_afterFirstUse : CtxState RCls :=
  (exOk (NameClassMapContext.exitCM subC ExcInfo.noExc
    (exOk (NameClassMapContext.enter subC c9_d c9_st0) c9_st0)) (c9_st0, false)).1

/-- C9: the instance state after the second __enter__ of the same instance,
whose keep list still holds the record of the first use. -/
def c9_secondEnter : CtxState RCls :=
  exOk (NameClassMapContext.enter subC c9_d c9_afterFirstUse) c9_afterFirstUse

theorem NameClassMap.setkey_default {Cls : Type} (m : NameClassMap Cls) (k : String)
    (w : Option Cls) : (m.setkey k w)._default = m._default := rfl

theorem NameClassMap.setkey_map_eq {Cls : Type} (m : NameClassMap Cls) (k : String)
    (w : Option Cls) : (m.setkey k w)._map k = w := by
  simp [NameClassMap.setkey]

theorem NameClassMap.setkey_map_ne {Cls : Type} (m : NameClassMap Cls) {q k : String}
    (h : q ≠ k) (w : Option Cls) : (m.setkey k w)._map q = m._map q := by
  simp [NameClassMap.setkey, h]

theorem NameClassMap.setkey_comm {Cls : Type} (m : NameClassMap Cls) {k k' : String}
    (h : k' ≠ k) (w w' : Option Cls) :
    (m.setkey k w).setkey k' w' = (m.setkey k' w').setkey k w := by
  unfold NameClassMap.setkey
  simp only [NameClassMap.mk.injEq, true_and]
  funext q
  by_cases h1 : q = k'
  · subst h1
    rw [if_pos rfl, if_neg h, if_pos rfl]
  · by_cases h2 : q = k
    · subst h2
      rw [if_neg h1, if_pos rfl, if_pos rfl]
    · rw [if_neg h1, if_neg h2, if_neg h2, if_neg h1]

theorem NameClassMap.setitem_ok {Cls : Type} {sub : Cls → Cls → Bool}
    {m m' : NameClassMap Cls} {k : String} {v : Cls}
    (h : NameClassMap.setitem sub m k v = Except.ok m') :
    sub v m._default = true ∧ m' = m.setkey k (some v) := by
  unfold NameClassMap.setitem at h
  split at h
  · exact ⟨by assumption, (Except.ok.inj h).symm⟩
  · cases h

theorem NameClassMap.delitem_ok {Cls : Type} {m m' : NameClassMap Cls} {k : String}
    (h : NameClassMap.delitem m k = Except.ok m') :
    (∃ v, m._map k = some v) ∧ m' = m.setkey k none := by
  unfold NameClassMap.delitem at h
  cases hm : m._map k with
  | some v => rw [hm] at h; exact ⟨⟨v, rfl⟩, (Except.ok.inj h).symm⟩
  | none => rw [hm] at h; cases h

theorem NameClassMapContext.enterLoop_keep_append {Cls : Type} (sub : Cls → Cls → Bool)
    (d : List (String × Cls)) :
    ∀ (m : NameClassMap Cls) (keep : List (String × Bool × Option Cls)),
    NameClassMapContext.enterLoop sub d m keep =
      match NameClassMapContext.enterLoop sub d m [] with
      | Except.ok (m2, delta) => Except.ok (m2, keep ++ delta)
      | Except.error e => Except.error e := by
  induction d with
  | nil =>
    intro m keep
    simp [NameClassMapContext.enterLoop]
  | cons kv rest ih =>
    intro m keep
    obtain ⟨k, v⟩ := kv
    simp only [NameClassMapContext.enterLoop]
    cases hs : NameClassMap.setitem sub m k v with
    | error e => rfl
    | ok m2 =>
      dsimp only
      rw [ih m2 (keep ++ [(k, m.containsKey k, m._map k)]),
          ih m2 ([] ++ [(k, m.containsKey k, m._map k)])]
      cases h2 : NameClassMapContext.enterLoop sub rest m2 [] with
      | error e => rfl
      | ok p =>
        obtain ⟨m3, delta⟩ := p
        simp

theorem NameClassMapContext.enterLoop_default {Cls : Type} (sub : Cls → Cls → Bool)
    (d : List (String × Cls)) :
    ∀ (m : NameClassMap Cls) keep m2 keep2,
    NameClassMapContext.enterLoop sub d m keep = Except.ok (m2, keep2) →
    m2._default = m._default := by
  induction d with
  | nil =>
    intro m keep m2 keep2 h
    simp only [NameClassMapContext.enterLoop, Except.ok.injEq, Prod.mk.injEq] at h
    rw [← h.1]
  | cons kv rest ih =>
    intro m keep m2 keep2 h
    obtain ⟨k, v⟩ := kv
    simp only [NameClassMapContext.enterLoop] at h
    cases hs : NameClassMap.setitem sub m k v with
    | error e => rw [hs] at h; cases h
    | ok mm =>
      rw [hs] at h
      have hd := (NameClassMap.setitem_ok hs).2
      have := ih mm _ m2 keep2 h
      rw [this, hd]
      rfl

theorem NameClassMapContext.enterLoop_untouched {Cls : Type} (sub : Cls → Cls → Bool)
    (d : List (String × Cls)) :
    ∀ (m : NameClassMap Cls) keep m2 keep2,
    NameClassMapContext.enterLoop sub d m keep = Except.ok (m2, keep2) →
    ∀ q, q ∉ d.map Prod.fst → m2._map q = m._map q := by
  induction d with
  | nil =>
    intro m keep m2 keep2 h q _
    simp only [NameClassMapContext.enterLoop, Except.ok.injEq, Prod.mk.injEq] at h
    rw [← h.1]
  | cons kv rest ih =>
    intro m keep m2 keep2 h q hq
    obtain ⟨k, v⟩ := kv
    simp only [NameClassMapContext.enterLoop] at h
    cases hs : NameClassMap.setitem sub m k v with
    | error e => rw [hs] at h; cases h
    | ok mm =>
      rw [hs] at h
      simp only [List.map_cons, List.mem_cons, not_or] at hq
      have h1 := ih mm _ m2 keep2 h q (by simpa using hq.2)
      rw [h1, (NameClassMap.setitem_ok hs).2,
          NameClassMap.setkey_map_ne m hq.1 (some v)]

theorem NameClassMapContext.enterLoop_keys {Cls : Type} (sub : Cls → Cls → Bool)
    (d : List (String × Cls)) :
    ∀ (m : NameClassMap Cls) keep m2 keep2,
    NameClassMapContext.enterLoop sub d m keep = Except.ok (m2, keep2) →
    ∀ e ∈ keep2, e ∈ keep ∨ e.1 ∈ d.map Prod.fst := by
  induction d with
  | nil =>
    intro m keep m2 keep2 h e he
    simp only [NameClassMapContext.enterLoop, Except.ok.injEq, Prod.mk.injEq] at h
    rw [← h.2] at he
    exact Or.inl he
  | cons kv rest ih =>
    intro m keep m2 keep2 h e he
    obtain ⟨k, v⟩ := kv
    simp only [NameClassMapContext.enterLoop] at h
    cases hs : NameClassMap.setitem sub m k v with
    | error e2 => rw [hs] at h; cases h
    | ok mm =>
      rw [hs] at h
      rcases ih mm _ m2 keep2 h e he with h1 | h1
      · rcases List.mem_append.1 h1 with h2 | h2
        · exact Or.inl h2
        · simp only [List.mem_singleton] at h2
          subst h2
          exact Or.inr (by simp)
      · exact Or.inr (by simp [h1])

theorem NameClassMapContext.exitLoop_setkey {Cls : Type} (sub : Cls → Cls → Bool)
    (kp : List (String × Bool × Option Cls)) {k : String}
    (hk : ∀ e ∈ kp, e.1 ≠ k) :
    ∀ (m : NameClassMap Cls) (w : Option Cls),
    NameClassMapContext.exitLoop sub kp (m.setkey k w) =
      match NameClassMapContext.exitLoop sub kp m with
      | Except.ok m2 => Except.ok (m2.setkey k w)
      | Except.error e => Except.error e := by
  induction kp with
  | nil =>
    intro m w
    simp [NameClassMapContext.exitLoop]
  | cons e rest ih =>
    intro m w
    obtain ⟨k1, restore, orig⟩ := e
    have hk1 : k1 ≠ k := hk (k1, restore, orig) (by simp)
    have hrest : ∀ e ∈ rest, e.1 ≠ k := fun e he => hk e (List.mem_cons_of_mem _ he)
    simp only [NameClassMapContext.exitLoop]
    cases restore with
    | true =>
      cases orig with
      | none => rfl
      | some v =>
        dsimp only
        unfold NameClassMap.setitem
        rw [NameClassMap.setkey_default]
        by_cases hsub : sub v m._default = true
        · rw [if_pos hsub, if_pos hsub]
          dsimp only
          rw [NameClassMap.setkey_comm m hk1 w (some v), ih hrest]
        · rw [if_neg hsub, if_neg hsub]
    | false =>
      dsimp only
      unfold NameClassMap.delitem
      rw [NameClassMap.setkey_map_ne m hk1 w]
      cases hm : m._map k1 with
      | none => rfl
      | some v =>
        dsimp only
        rw [NameClassMap.setkey_comm m hk1 w none, ih hrest]

theorem NameClassMapContext.roundtrip {Cls : Type} (sub : Cls → Cls → Bool)
    (d : List (String × Cls)) :
    ∀ (m : NameClassMap Cls), (d.map Prod.fst).Nodup → MapInv sub m →
    ∀ m1 delta, NameClassMapContext.enterLoop sub d m [] = Except.ok (m1, delta) →
    ∃ m2, NameClassMapContext.exitLoop sub delta m1 = Except.ok m2 ∧
      m2._default = m._default ∧ ∀ q, m2._map q = m._map q := by
  induction d with
  | nil =>
    intro m _ _ m1 delta h
    simp only [NameClassMapContext.enterLoop, Except.ok.injEq, Prod.mk.injEq] at h
    refine ⟨m1, ?_, ?_, ?_⟩
    · rw [← h.2]
      rfl
    · rw [← h.1]
    · rw [← h.1]
      intro q
      rfl
  | cons kv rest ih =>
    intro m hnodup hinv m1 delta h
    obtain ⟨k, v⟩ := kv
    simp only [List.map_cons, List.nodup_cons] at hnodup
    simp only [NameClassMapContext.enterLoop] at h
    cases hs : NameClassMap.setitem sub m k v with
    | error e => rw [hs] at h; cases h
    | ok mm =>
      rw [hs] at h
      dsimp only at h
      obtain ⟨hsub, hmm⟩ := NameClassMap.setitem_ok hs
      rw [NameClassMapContext.enterLoop_keep_append sub rest mm
        ([] ++ [(k, m.containsKey k, m._map k)])] at h
      cases h2 : NameClassMapContext.enterLoop sub rest mm [] with
      | error e => rw [h2] at h; cases h
      | ok p =>
        obtain ⟨m1', delta'⟩ := p
        rw [h2] at h
        simp only [List.nil_append, List.singleton_append, Except.ok.injEq,
          Prod.mk.injEq] at h
        obtain ⟨hm1, hdelta⟩ := h
        subst hm1
        have hinvmm : MapInv sub mm := by
          intro q c hq
          rw [hmm] at hq
          by_cases hqk : q = k
          · subst hqk
            rw [NameClassMap.setkey_map_eq] at hq
            rw [hmm, NameClassMap.setkey_default]
            cases hq
            exact hsub
          · rw [NameClassMap.setkey_map_ne m hqk (some v)] at hq
            rw [hmm, NameClassMap.setkey_default]
            exact hinv q c hq
        obtain ⟨m2', hexit', hdef', hmap'⟩ := ih mm hnodup.2 hinvmm m1' delta' h2
        have hkeys : ∀ e ∈ delta', e.1 ≠ k := by
          intro e he
          rcases NameClassMapContext.enterLoop_keys sub rest mm [] m1' delta' h2 e he with
            h3 | h3
          · cases h3
          · intro hek
            exact hnodup.1 (hek ▸ h3)
        have hdefault1 : m1'._default = m._default := by
          rw [NameClassMapContext.enterLoop_default sub rest mm [] m1' delta' h2, hmm]
          rfl
        have hmapk : m1'._map k = some v := by
          have h4 := NameClassMapContext.enterLoop_untouched sub rest mm [] m1' delta' h2 k
            (fun hc => hnodup.1 hc)
          rw [h4, hmm, NameClassMap.setkey_map_eq]
        subst hdelta
        simp only [NameClassMapContext.exitLoop]
        cases hmk : m._map k with
        | some orig =>
          simp only [NameClassMap.containsKey, hmk, Option.isSome_some]
          unfold NameClassMap.setitem
          rw [hdefault1, if_pos (hinv k orig hmk)]
          dsimp only
          rw [NameClassMapContext.exitLoop_setkey sub delta' hkeys m1' (some orig), hexit']
          refine ⟨m2'.setkey k (some orig), rfl, ?_, ?_⟩
          · rw [NameClassMap.setkey_default, hdef', hmm]
            rfl
          · intro q
            by_cases hqk : q = k
            · subst hqk
              rw [NameClassMap.setkey_map_eq, hmk]
            · rw [NameClassMap.setkey_map_ne m2' hqk (some orig), hmap' q, hmm,
                NameClassMap.setkey_map_ne m hqk (some v)]
        | none =>
          simp only [NameClassMap.containsKey, hmk, Option.isSome_none]
          unfold NameClassMap.delitem
          rw [hmapk]
          dsimp only
          rw [NameClassMapContext.exitLoop_setkey sub delta' hkeys m1' none, hexit']
          refine ⟨m2'.setkey k none, rfl, ?_, ?_⟩
          · rw [NameClassMap.setkey_default, hdef', hmm]
            rfl
          · intro q
            by_cases hqk : q = k
            · subst hqk
              rw [NameClassMap.setkey_map_eq, hmk]
            · rw [NameClassMap.setkey_map_ne m2' hqk none, hmap' q, hmm,
                NameClassMap.setkey_map_ne m hqk (some v)]

/-- C1: for every scoped override (NameClassMapContext, fresh instance so its
keep list is empty) opened on a resolver satisfying the setitem subclass
invariant, with an override dict whose keys are distinct, scope exit succeeds
whatever the exception state is, and the resolver table afterwards is
pointwise exactly the table at entry: previously present keys hold their old
class again and previously absent keys are absent again. -/
theorem C1_scoped_override_restores {Cls : Type} (sub : Cls → Cls → Bool)
    (d : List (String × Cls)) (st0 st1 : CtxState Cls) (exc : ExcInfo)
    (hkeep : st0.keep = [])
    (hnodup : (d.map Prod.fst).Nodup)
    (hinv : MapInv sub st0.nameclassmap)
    (henter : NameClassMapContext.enter sub d st0 = Except.ok st1) :
    ∃ st2 b, NameClassMapContext.exitCM sub exc st1 = Except.ok (st2, b) ∧
      (∀ q, st2.nameclassmap._map q = st0.nameclassmap._map q) ∧
      st2.nameclassmap._default = st0.nameclassmap._default := by
  unfold NameClassMapContext.enter at henter
  rw [hkeep] at henter
  cases hel : NameClassMapContext.enterLoop sub d st0.nameclassmap [] with
  | error e => rw [hel] at henter; cases henter
  | ok p =>
    obtain ⟨m1, delta⟩ := p
    rw [hel] at henter
    have hst1 : st1 = ⟨m1, delta⟩ := (Except.ok.inj henter).symm
    obtain ⟨m2, hexit, hdef, hmap⟩ :=
      NameClassMapContext.roundtrip sub d st0.nameclassmap hnodup hinv m1 delta hel
    refine ⟨⟨m2, delta⟩, false, ?_, hmap, hdef⟩
    unfold NameClassMapContext.exitCM
    rw [hst1]
    dsimp only
    rw [hexit]

/-- Witness for C1 at the concrete scenario: resolver mapping A to clsX,
override dict installing clsY over A and clsZ at the fresh key B, body raising
an error; after exit A holds clsX again and B is absent. -/
theorem C1_scoped_override_restores_witness :
    ∃ st2 b, NameClassMapContext.exitCM subC ExcInfo.excRaised c1_st1 = Except.ok (st2, b) ∧
      st2.nameclassmap._map "A" = some RCls.clsX ∧ st2.nameclassmap._map "B" = none := by
  obtain ⟨st2, b, hexit, hmap, hdef⟩ :=
    C1_scoped_override_restores subC c1_d c1_st0 c1_st1 ExcInfo.excRaised rfl (by decide)
      (by
        intro k c h
        dsimp [c1_st0] at h
        split at h
        · cases h
          decide
        · cases h)
      rfl
  refine ⟨st2, b, hexit, ?_, ?_⟩
  · rw [hmap "A"]
    decide
  · rw [hmap "B"]
    decide

/-- C2: for every resolver whose table initially maps A to a class X (and any
classes X, Y, W accepted by the setitem assertion), an outer override
installing Y over A then an inner override installing W over A, both entered
while active and exited in last-in-first-out order (with any exception
states): inside the inner scope A resolves to W, after the inner exit A
resolves to Y, and after the outer exit A resolves to X. -/
theorem C2_nested_overrides_unwind_lifo {Cls : Type} (sub : Cls → Cls → Bool)
    (m0 : NameClassMap Cls) (X Y W : Cls)
    (hX : m0._map "A" = some X)
    (hsubX : sub X m0._default = true)
    (hsubY : sub Y m0._default = true)
    (hsubW : sub W m0._default = true)
    (excInner excOuter : ExcInfo) :
    ∃ stO stI stI2 stF : CtxState Cls,
      NameClassMapContext.enter sub [("A", Y)] ⟨m0, []⟩ = Except.ok stO ∧
      NameClassMapContext.enter sub [("A", W)] ⟨stO.nameclassmap, []⟩ = Except.ok stI ∧
      NameClassMap.find stI.nameclassmap ["A"] = Except.ok W ∧
      NameClassMapContext.exitCM sub excInner stI = Except.ok (stI2, false) ∧
      NameClassMap.find stI2.nameclassmap ["A"] = Except.ok Y ∧
      NameClassMapContext.exitCM sub excOuter ⟨stI2.nameclassmap, stO.keep⟩ =
        Except.ok (stF, false) ∧
      NameClassMap.find stF.nameclassmap ["A"] = Except.ok X := by
  refine ⟨⟨m0.setkey "A" (some Y), [("A", true, some X)]⟩,
    ⟨(m0.setkey "A" (some Y)).setkey "A" (some W), [("A", true, some Y)]⟩,
    ⟨((m0.setkey "A" (some Y)).setkey "A" (some W)).setkey "A" (some Y),
      [("A", true, some Y)]⟩,
    ⟨(((m0.setkey "A" (some Y)).setkey "A" (some W)).setkey "A" (some Y)).setkey "A"
      (some X), [("A", true, some X)]⟩, ?_, ?_, ?_, ?_, ?_, ?_, ?_⟩
  · simp [NameClassMapContext.enter, NameClassMapContext.enterLoop,
      NameClassMap.containsKey, NameClassMap.setitem, hX, hsubY]
  · simp [NameClassMapContext.enter, NameClassMapContext.enterLoop,
      NameClassMap.containsKey, NameClassMap.setitem, NameClassMap.setkey, hsubW]
  · simp [NameClassMap.find, NameClassMap.find_key, NameClassMap.getitem,
      NameClassMap.setkey]
  · simp [NameClassMapContext.exitCM, NameClassMapContext.exitLoop,
      NameClassMap.setitem, NameClassMap.setkey, hsubY]
  · simp [NameClassMap.find, NameClassMap.find_key, NameClassMap.getitem,
      NameClassMap.setkey]
  · simp [NameClassMapContext.exitCM, NameClassMapContext.exitLoop,
      NameClassMap.setitem, NameClassMap.setkey, hsubX]
  · simp [NameClassMap.find, NameClassMap.find_key, NameClassMap.getitem,
      NameClassMap.setkey, hX]

/-- Witness for C2 at the concrete scenario: resolver mapping A to clsX,
outer override clsY, inner override clsW, inner body exiting normally and
outer body exiting on a raised error. -/
theorem C2_nested_overrides_unwind_lifo_witness :
    ∃ stO stI stI2 stF : CtxState RCls,
      NameClassMapContext.enter subC [("A", RCls.clsY)] ⟨c2_m0, []⟩ = Except.ok stO ∧
      NameClassMapContext.enter subC [("A", RCls.clsW)] ⟨stO.nameclassmap, []⟩ =
        Except.ok stI ∧
      NameClassMap.find stI.nameclassmap ["A"] = Except.ok RCls.clsW ∧
      NameClassMapContext.exitCM subC ExcInfo.noExc stI = Except.ok (stI2, false) ∧
      NameClassMap.find stI2.nameclassmap ["A"] = Except.ok RCls.clsY ∧
      NameClassMapContext.exitCM subC ExcInfo.excRaised ⟨stI2.nameclassmap, stO.keep⟩ =
        Except.ok (stF, false) ∧
      NameClassMap.find stF.nameclassmap ["A"] = Except.ok RCls.clsX :=
  C2_nested_overrides_unwind_lifo subC c2_m0 RCls.clsX RCls.clsY RCls.clsW (by decide)
    (by decide) (by decide) (by decide) ExcInfo.noExc ExcInfo.excRaised

/-- C5: evaluation at the failing input.  With the empty string registered as
a key (mapped to clsC), find_key over the candidate list containing exactly
the empty string returns that key, yet find returns the default class rather
than clsC: the truthiness test `if k:` in NameClassMap.find treats the empty
string like None, contradicting the documented first-present-candidate
contract. -/
theorem C5_find_truthiness_bug :
    NameClassMap.find_key c5_m [""] = some "" ∧
    c5_m._map "" = some RCls.clsC ∧
    NameClassMap.find c5_m [""] = Except.ok RCls.rs4Default ∧
    RCls.rs4Default ≠ RCls.clsC := by
  decide

/-- C9: evaluation at the failing input.  After a complete first use of one
NameClassMapContext instance (enter then exit, both succeeding), the instance
still retains its recorded entry: its keep list is not reset to empty.
Re-entering the same instance therefore appends to the stale records, and the
second exit replays the stale record and raises KeyError. -/
theorem C9_keep_persists_after_exit :
    exIsError (NameClassMapContext.enter subC c9_d c9_st0) = false ∧
    exIsError (NameClassMapContext.exitCM subC ExcInfo.noExc
      (exOk (NameClassMapContext.enter subC c9_d c9_st0) c9_st0)) = false ∧
    c9_afterFirstUse.keep = [("B", false, none)] ∧
    exIsError (NameClassMapContext.enter subC c9_d c9_afterFirstUse) = false ∧
    exIsKeyError (NameClassMapContext.exitCM subC ExcInfo.noExc c9_secondEnter) = true := by
  decide

/-- C3 counterexample: a real-tagged vector with no class overrides whose dim
slot is present with length 0 is promoted to the array class, not the plain
vector class the claim asserts for length-0 dimensions. -/
theorem C3_zero_length_dim_counterexample :
    sexpvector_to_ro ⟨RTag.REALSXP, [], some []⟩ ≠ some ROCls.FloatVector ∧
    sexpvector_to_ro ⟨RTag.REALSXP, [], some []⟩ = some ROCls.FloatArray := by
  decide

/-- C3 (amended): for every vector-like value without class-based overrides,
the wrapper category is decided by the dim slot alone: absent dim gives the
plain vector class, a present dim of length exactly 2 gives the matrix class,
and a present dim of any other length (0, 1, or 3 and more) gives the array
class. -/
theorem C3_dim_decides_category (obj : SexpVectorModel) (v mx ar : ROCls)
    (hdf : obj.rclass.contains "data.frame" = false)
    (hfac : obj.rclass.contains "factor" = false)
    (hdt : obj.rclass.contains "POSIXct" = false)
    (ht : vecTriple obj.typeof = some (v, mx, ar)) :
    (obj.dim = none → sexpvector_to_ro obj = some v) ∧
    (∀ dims, obj.dim = some dims →
      (dims.length = 2 → sexpvector_to_ro obj = some mx) ∧
      (dims.length ≠ 2 → sexpvector_to_ro obj = some ar)) := by
  obtain ⟨t, rcls, dim⟩ := obj
  dsimp only at hdf hfac hdt ht ⊢
  have hdf2 : "data.frame" ∉ rcls := by simpa using hdf
  have hfac2 : "factor" ∉ rcls := by simpa using hfac
  have hdt2 : "POSIXct" ∉ rcls := by simpa using hdt
  cases t with
  | INTSXP =>
    simp only [vecTriple, Option.some.injEq, Prod.mk.injEq] at ht
    obtain ⟨hv, hmx, har⟩ := ht
    subst hv hmx har
    refine ⟨fun hdim => ?_, fun dims hdim => ⟨fun hlen => ?_, fun hlen => ?_⟩⟩ <;>
      simp_all [sexpvector_to_ro, vectorMatrixArray, isPOSIXct]
  | REALSXP =>
    simp only [vecTriple, Option.some.injEq, Prod.mk.injEq] at ht
    obtain ⟨hv, hmx, har⟩ := ht
    subst hv hmx har
    refine ⟨fun hdim => ?_, fun dims hdim => ⟨fun hlen => ?_, fun hlen => ?_⟩⟩ <;>
      simp_all [sexpvector_to_ro, vectorMatrixArray, isPOSIXct]
  | LGLSXP =>
    simp only [vecTriple, Option.some.injEq, Prod.mk.injEq] at ht
    obtain ⟨hv, hmx, har⟩ := ht
    subst hv hmx har
    refine ⟨fun hdim => ?_, fun dims hdim => ⟨fun hlen => ?_, fun hlen => ?_⟩⟩ <;>
      simp_all [sexpvector_to_ro, vectorMatrixArray, isPOSIXct]
  | STRSXP =>
    simp only [vecTriple, Option.some.injEq, Prod.mk.injEq] at ht
    obtain ⟨hv, hmx, har⟩ := ht
    subst hv hmx har
    refine ⟨fun hdim => ?_, fun dims hdim => ⟨fun hlen => ?_, fun hlen => ?_⟩⟩ <;>
      simp_all [sexpvector_to_ro, vectorMatrixArray, isPOSIXct]
  | CPLXSXP =>
    simp only [vecTriple, Option.some.injEq, Prod.mk.injEq] at ht
    obtain ⟨hv, hmx, har⟩ := ht
    subst hv hmx har
    refine ⟨fun hdim => ?_, fun dims hdim => ⟨fun hlen => ?_, fun hlen => ?_⟩⟩ <;>
      simp_all [sexpvector_to_ro, vectorMatrixArray, isPOSIXct]
  | RAWSXP =>
    simp only [vecTriple, Option.some.injEq, Prod.mk.injEq] at ht
    obtain ⟨hv, hmx, har⟩ := ht
    subst hv hmx har
    refine ⟨fun hdim => ?_, fun dims hdim => ⟨fun hlen => ?_, fun hlen => ?_⟩⟩ <;>
      simp_all [sexpvector_to_ro, vectorMatrixArray, isPOSIXct]
  | VECSXP => exact Option.noConfusion ht
  | LISTSXP => exact Option.noConfusion ht
  | LANGSXP => exact Option.noConfusion ht
  | otherTag => exact Option.noConfusion ht

/-- Witness for C3 at the spec fixture: a real-tagged vector with dim [3, 4]
becomes the float matrix class. -/
theorem C3_dim_decides_category_witness :
    sexpvector_to_ro ⟨RTag.REALSXP, [], some [3, 4]⟩ = some ROCls.FloatMatrix := by
  have h := C3_dim_decides_category ⟨RTag.REALSXP, [], some [3, 4]⟩ ROCls.FloatVector
    ROCls.FloatMatrix ROCls.FloatArray (by decide) (by decide) (by decide) (by decide)
  exact (h.2 [3, 4] rfl).1 (by decide)

/-- C4: the class-based overrides take precedence over the generic shape
rule: any value whose class chain contains data.frame becomes the DataFrame
wrapper whatever its storage tag and dim, and (the data.frame branch not
applying) an integer-tagged value whose class chain contains factor becomes
the FactorVector wrapper whatever its dim. -/
theorem C4_class_overrides_precedence :
    (∀ obj : SexpVectorModel, obj.rclass.contains "data.frame" = true →
      sexpvector_to_ro obj = some ROCls.DataFrame) ∧
    (∀ obj : SexpVectorModel, obj.rclass.contains "data.frame" = false →
      obj.typeof = RTag.INTSXP → obj.rclass.contains "factor" = true →
      sexpvector_to_ro obj = some ROCls.FactorVector) := by
  constructor
  · intro obj h
    have h2 : "data.frame" ∈ obj.rclass := by simpa using h
    simp [sexpvector_to_ro, h2]
  · intro obj hdf ht hfac
    obtain ⟨t, rcls, dim⟩ := obj
    dsimp only at hdf ht hfac
    subst ht
    have hdf2 : "data.frame" ∉ rcls := by simpa using hdf
    have hfac2 : "factor" ∈ rcls := by simpa using hfac
    simp [sexpvector_to_ro, hdf2, hfac2]

/-- Witness for C4: a real-tagged value classed data.frame becomes DataFrame;
an integer-tagged value classed factor with dim [2, 2] becomes FactorVector,
not a matrix. -/
theorem C4_class_overrides_precedence_witness :
    sexpvector_to_ro ⟨RTag.REALSXP, ["data.frame"], none⟩ = some ROCls.DataFrame ∧
    sexpvector_to_ro ⟨RTag.INTSXP, ["factor"], some [2, 2]⟩ = some ROCls.FactorVector :=
  ⟨C4_class_overrides_precedence.1 ⟨RTag.REALSXP, ["data.frame"], none⟩ (by decide),
   C4_class_overrides_precedence.2 ⟨RTag.INTSXP, ["factor"], some [2, 2]⟩ (by decide) rfl
     (by decide)⟩

/-- C6 counterexample: for a value matching no specific registration (type
chain SexpOtherT then object), the applied fallback handler does not produce
the RObject wrapper: it returns the raw value unchanged, because the identity
registration at lines 393-395 overwrote the RObject-wrapping registration at
lines 310-312 for the object key. -/
theorem C6_fallback_counterexample :
    applyObjectHandler (dispatchInbound rpy2pyTable [TypeDesc.SexpOtherT, TypeDesc.objectT])
      (PyObj.raw 0) ≠ some (PyObj.robjectWrap (PyObj.raw 0)) ∧
    applyObjectHandler (dispatchInbound rpy2pyTable [TypeDesc.SexpOtherT, TypeDesc.objectT])
      (PyObj.raw 0) = some (PyObj.raw 0) := by
  decide

/-- C6 (amended): for every inbound value whose type chain reaches the
universal object type without any specifically registered descriptor, the
handler applied is the one registered last for `object` — the identity
handler of lines 393-395 — so the value is returned unchanged rather than
wrapped in RObject. -/
theorem C6_fallback_identity (mro : List TypeDesc) (o : PyObj) :
    TypeDesc.objectT ∈ mro →
    (∀ t ∈ mro, t ≠ TypeDesc.objectT → rpy2pyTable t = none) →
    dispatchInbound rpy2pyTable mro = some HandlerId.underscore_object ∧
    applyObjectHandler (dispatchInbound rpy2pyTable mro) o = some o := by
  induction mro with
  | nil => intro h _; cases h
  | cons t rest ih =>
    intro hobj hspec
    by_cases hto : t = TypeDesc.objectT
    · subst hto
      have htab : rpy2pyTable TypeDesc.objectT = some HandlerId.underscore_object := by
        decide
      constructor
      · simp only [dispatchInbound, htab]
      · simp only [dispatchInbound, htab]
        rfl
    · have htab : rpy2pyTable t = none := hspec t (List.mem_cons_self t rest) hto
      have hobj2 : TypeDesc.objectT ∈ rest := by
        rcases List.mem_cons.1 hobj with h1 | h1
        · exact absurd h1.symm hto
        · exact h1
      have h2 := ih hobj2 (fun u hu => hspec u (List.mem_cons_of_mem _ hu))
      constructor
      · simp only [dispatchInbound, htab]
        exact h2.1
      · simp only [dispatchInbound, htab]
        exact h2.2

/-- Witness for C6 at the concrete chain [SexpOtherT, objectT] and raw value
7: dispatch selects the identity handler and the value comes back unchanged. -/
theorem C6_fallback_identity_witness :
    dispatchInbound rpy2pyTable [TypeDesc.SexpOtherT, TypeDesc.objectT] =
      some HandlerId.underscore_object ∧
    applyObjectHandler (dispatchInbound rpy2pyTable [TypeDesc.SexpOtherT, TypeDesc.objectT])
      (PyObj.raw 7) = some (PyObj.raw 7) :=
  C6_fallback_identity [TypeDesc.SexpOtherT, TypeDesc.objectT] (PyObj.raw 7) (by decide)
    (by decide)

theorem prioOf_nonneg (t : PyType) (h : TYPEORDER t ≠ none) : 0 ≤ prioOf t := by
  cases t
  · decide
  · decide
  · decide
  · decide
  · decide
  · exact absurd rfl h

theorem stvLoop_spec (lst : List PyType) :
    ∀ (co : Int) (cc : Option ROCls), (∀ t ∈ lst, TYPEORDER t ≠ none) →
    (stvLoop lst co cc = Except.ok (co, cc) ∧ ∀ t ∈ lst, prioOf t ≤ co) ∨
    (∃ u, u ∈ lst ∧ stvLoop lst co cc = Except.ok (prioOf u, some (clsOf u)) ∧
      co < prioOf u ∧ ∀ t ∈ lst, prioOf t ≤ prioOf u) := by
  induction lst with
  | nil =>
    intro co cc _
    left
    exact ⟨rfl, by simp⟩
  | cons t rest ih =>
    intro co cc hall
    have ht : TYPEORDER t ≠ none := hall t (by simp)
    have hrest : ∀ u ∈ rest, TYPEORDER u ≠ none :=
      fun u hu => hall u (List.mem_cons_of_mem _ hu)
    cases hT : TYPEORDER t with
    | none => exact absurd hT ht
    | some pc =>
      obtain ⟨p, c⟩ := pc
      have hprio : prioOf t = (p : Int) := by simp [prioOf, hT]
      have hcls : clsOf t = c := by simp [clsOf, hT]
      simp only [stvLoop, hT]
      by_cases hgt : (p : Int) > co
      · rw [if_pos hgt]
        rcases ih (p : Int) (some c) hrest with ⟨hok, hle⟩ | ⟨u, hu, hok, hlt, hle⟩
        · right
          refine ⟨t, by simp, ?_, ?_, ?_⟩
          · rw [hok, hprio, hcls]
          · rw [hprio]
            exact hgt
          · intro u hu
            rcases List.mem_cons.1 hu with h1 | h1
            · subst h1
              exact le_refl _
            · rw [hprio]
              exact hle u h1
        · right
          refine ⟨u, List.mem_cons_of_mem _ hu, hok, lt_trans hgt hlt, ?_⟩
          intro u2 hu2
          rcases List.mem_cons.1 hu2 with h1 | h1
          · subst h1
            rw [hprio]
            exact le_of_lt hlt
          · exact hle u2 h1
      · rw [if_neg hgt]
        rcases ih co cc hrest with ⟨hok, hle⟩ | ⟨u, hu, hok, hlt, hle⟩
        · left
          refine ⟨hok, ?_⟩
          intro u hu
          rcases List.mem_cons.1 hu with h1 | h1
          · subst h1
            rw [hprio]
            exact not_lt.1 hgt
          · exact hle u h1
        · right
          refine ⟨u, List.mem_cons_of_mem _ hu, hok, hlt, ?_⟩
          intro u2 hu2
          rcases List.mem_cons.1 hu2 with h1 | h1
          · subst h1
            rw [hprio]
            exact le_trans (not_lt.1 hgt) (le_of_lt hlt)
          · exact hle u2 h1

theorem stvLoop_err (lst : List PyType) :
    ∀ (co : Int) (cc : Option ROCls), (∃ t, t ∈ lst ∧ TYPEORDER t = none) →
    ∃ msg, stvLoop lst co cc = Except.error msg := by
  induction lst with
  | nil =>
    intro co cc h
    obtain ⟨t, ht, _⟩ := h
    cases ht
  | cons t rest ih =>
    intro co cc h
    obtain ⟨u, hu, hT⟩ := h
    cases hTt : TYPEORDER t with
    | none =>
      exact ⟨"The element in the list has a type that cannot be handled.",
        by simp [stvLoop, hTt]⟩
    | some pc =>
      have hur : u ∈ rest := by
        rcases List.mem_cons.1 hu with h1 | h1
        · subst h1
          rw [hTt] at hT
          cases hT
        · exact h1
      obtain ⟨p, c⟩ := pc
      simp only [stvLoop, hTt]
      by_cases hgt : (p : Int) > co
      · rw [if_pos hgt]
        exact ih _ _ ⟨u, hur, hT⟩
      · rw [if_neg hgt]
        exact ih _ _ ⟨u, hur, hT⟩

/-- C7: sequence_to_vector raises exactly when the input sequence is empty or
contains an element whose type has no TYPEORDER registration; in every other
case it succeeds. -/
theorem C7_sequence_error_iff (lst : List PyType) :
    exIsError (sequence_to_vector lst) = true ↔
      lst = [] ∨ ∃ t, t ∈ lst ∧ TYPEORDER t = none := by
  constructor
  · intro h
    by_contra hc
    push_neg at hc
    obtain ⟨hne, hall⟩ := hc
    cases lst with
    | nil => exact hne rfl
    | cons a rest =>
      have hall2 : ∀ t ∈ a :: rest, TYPEORDER t ≠ none := fun t htm => hall t htm
      rcases stvLoop_spec (a :: rest) (-1) none hall2 with ⟨_, hle⟩ | ⟨u, _, hok, _, _⟩
      · have h1 := hle a (by simp)
        have h0 := prioOf_nonneg a (hall2 a (by simp))
        omega
      · rw [show sequence_to_vector (a :: rest) =
            (match stvLoop (a :: rest) (-1) none with
             | Except.error e => Except.error e
             | Except.ok (_, some c) => Except.ok c
             | Except.ok (_, none) =>
               Except.error "NameError: curr_type referenced before assignment" : Except String ROCls)
            from rfl, hok] at h
        simp [exIsError] at h
  · intro h
    rcases h with h | ⟨t, ht, hT⟩
    · subst h
      decide
    · cases lst with
      | nil => cases ht
      | cons a rest =>
        obtain ⟨msg, hmsg⟩ := stvLoop_err (a :: rest) (-1) none ⟨t, ht, hT⟩
        rw [show sequence_to_vector (a :: rest) =
            (match stvLoop (a :: rest) (-1) none with
             | Except.error e => Except.error e
             | Except.ok (_, some c) => Except.ok c
             | Except.ok (_, none) =>
               Except.error "NameError: curr_type referenced before assignment" : Except String ROCls)
            from rfl, hmsg]
        rfl

/-- Witness for C7: the empty sequence errors, a sequence with an unregistered
element type errors, and a well-typed non-empty sequence does not. -/
theorem C7_sequence_error_iff_witness :
    exIsError (sequence_to_vector []) = true ∧
    exIsError (sequence_to_vector [PyType.intT, PyType.otherType]) = true ∧
    exIsError (sequence_to_vector [PyType.boolT, PyType.intT, PyType.strT]) = false := by
  refine ⟨(C7_sequence_error_iff []).mpr (Or.inl rfl),
    (C7_sequence_error_iff [PyType.intT, PyType.otherType]).mpr
      (Or.inr ⟨PyType.otherType, by decide, rfl⟩), by decide⟩

/-- C8: every non-empty sequence whose element types are all registered in
TYPEORDER is converted to the vector class of a highest-priority element type
present in the sequence. -/
theorem C8_sequence_highest_priority (lst : List PyType) (hne : lst ≠ [])
    (hall : ∀ t ∈ lst, TYPEORDER t ≠ none) :
    ∃ u, u ∈ lst ∧ sequence_to_vector lst = Except.ok (clsOf u) ∧
      ∀ t ∈ lst, prioOf t ≤ prioOf u := by
  cases lst with
  | nil => exact absurd rfl hne
  | cons a rest =>
    rcases stvLoop_spec (a :: rest) (-1) none hall with ⟨_, hle⟩ | ⟨u, hu, hok, _, hle⟩
    · have h1 := hle a (by simp)
      have h0 := prioOf_nonneg a (hall a (by simp))
      omega
    · refine ⟨u, hu, ?_, hle⟩
      rw [show sequence_to_vector (a :: rest) =
          (match stvLoop (a :: rest) (-1) none with
           | Except.error e => Except.error e
           | Except.ok (_, some c) => Except.ok c
           | Except.ok (_, none) =>
             Except.error "NameError: curr_type referenced before assignment" : Except String ROCls)
          from rfl, hok]

/-- Witness for C8 at the spec fixture [bool, int, str]: the inferred class is
the string vector class, and the declared priority ordering is strictly
increasing over bool, int, float, complex, str. -/
theorem C8_sequence_highest_priority_witness :
    (∃ u, u ∈ [PyType.boolT, PyType.intT, PyType.strT] ∧
      sequence_to_vector [PyType.boolT, PyType.intT, PyType.strT] = Except.ok (clsOf u) ∧
      ∀ t ∈ [PyType.boolT, PyType.intT, PyType.strT], prioOf t ≤ prioOf u) ∧
    sequence_to_vector [PyType.boolT, PyType.intT, PyType.strT] = Except.ok ROCls.StrVector ∧
    prioOf PyType.boolT < prioOf PyType.intT ∧ prioOf PyType.intT < prioOf PyType.floatT ∧
    prioOf PyType.floatT < prioOf PyType.complexT ∧
    prioOf PyType.complexT < prioOf PyType.strT :=
  ⟨C8_sequence_highest_priority [PyType.boolT, PyType.intT, PyType.strT] (by decide)
    (by decide), by decide, by decide, by decide, by decide, by decide⟩

theorem NameClassMap.setitem_inv {Cls : Type} {sub : Cls → Cls → Bool}
    {m m' : NameClassMap Cls} {k : String} {v : Cls}
    (h : NameClassMap.setitem sub m k v = Except.ok m') (hinv : MapInv sub m) :
    MapInv sub m' := by
  obtain ⟨hsub, hmm⟩ := NameClassMap.setitem_ok h
  subst hmm
  intro q c hq
  rw [NameClassMap.setkey_default]
  by_cases hqk : q = k
  · subst hqk
    rw [NameClassMap.setkey_map_eq] at hq
    cases hq
    exact hsub
  · rw [NameClassMap.setkey_map_ne m hqk (some v)] at hq
    exact hinv q c hq

theorem NameClassMap.delitem_inv {Cls : Type} {sub : Cls → Cls → Bool}
    {m m' : NameClassMap Cls} {k : String}
    (h : NameClassMap.delitem m k = Except.ok m') (hinv : MapInv sub m) :
    MapInv sub m' := by
  obtain ⟨_, hmm⟩ := NameClassMap.delitem_ok h
  subst hmm
  intro q c hq
  rw [NameClassMap.setkey_default]
  by_cases hqk : q = k
  · subst hqk
    rw [NameClassMap.setkey_map_eq] at hq
    cases hq
  · rw [NameClassMap.setkey_map_ne m hqk none] at hq
    exact hinv q c hq

theorem NameClassMapContext.enterLoop_inv {Cls : Type} (sub : Cls → Cls → Bool)
    (d : List (String × Cls)) :
    ∀ (m : NameClassMap Cls) keep m2 keep2,
    NameClassMapContext.enterLoop sub d m keep = Except.ok (m2, keep2) →
    MapInv sub m → MapInv sub m2 := by
  induction d with
  | nil =>
    intro m keep m2 keep2 h hinv
    simp only [NameClassMapContext.enterLoop, Except.ok.injEq, Prod.mk.injEq] at h
    rw [← h.1]
    exact hinv
  | cons kv rest ih =>
    intro m keep m2 keep2 h hinv
    obtain ⟨k, v⟩ := kv
    simp only [NameClassMapContext.enterLoop] at h
    cases hs : NameClassMap.setitem sub m k v with
    | error e => rw [hs] at h; cases h
    | ok mm =>
      rw [hs] at h
      exact ih mm _ m2 keep2 h (NameClassMap.setitem_inv hs hinv)

theorem NameClassMapContext.exitLoop_inv {Cls : Type} (sub : Cls → Cls → Bool)
    (kp : List (String × Bool × Option Cls)) :
    ∀ (m m2 : NameClassMap Cls),
    NameClassMapContext.exitLoop sub kp m = Except.ok m2 →
    MapInv sub m → MapInv sub m2 := by
  induction kp with
  | nil =>
    intro m m2 h hinv
    simp only [NameClassMapContext.exitLoop, Except.ok.injEq] at h
    rw [← h]
    exact hinv
  | cons e rest ih =>
    intro m m2 h hinv
    obtain ⟨k, restore, orig⟩ := e
    simp only [NameClassMapContext.exitLoop] at h
    cases restore with
    | true =>
      cases orig with
      | none => cases h
      | some v =>
        dsimp only at h
        cases hs : NameClassMap.setitem sub m k v with
        | error e2 => rw [hs] at h; cases h
        | ok mm =>
          rw [hs] at h
          exact ih mm m2 h (NameClassMap.setitem_inv hs hinv)
    | false =>
      dsimp only at h
      cases hd : NameClassMap.delitem m k with
      | error e2 => rw [hd] at h; cases h
      | ok mm =>
        rw [hd] at h
        exact ih mm m2 h (NameClassMap.delitem_inv hd hinv)

/-- C10: the stored-class invariant of NameClassMap.  Insertion rejects, via
the assertion, any value that is not an issubclass of the instance default;
successful insertion, deletion, scoped-override entry, and scoped-override
exit all preserve the invariant that every stored class is an issubclass of
the default; and under the invariant (with issubclass reflexive at the
default) find only ever returns an issubclass of the default. -/
theorem C10_subclass_invariant {Cls : Type} (sub : Cls → Cls → Bool) :
    (∀ (m : NameClassMap Cls) (k : String) (v : Cls), sub v m._default = false →
      NameClassMap.setitem sub m k v = Except.error PyErr.assertionError) ∧
    (∀ (m m' : NameClassMap Cls) (k : String) (v : Cls),
      NameClassMap.setitem sub m k v = Except.ok m' → MapInv sub m → MapInv sub m') ∧
    (∀ (m m' : NameClassMap Cls) (k : String),
      NameClassMap.delitem m k = Except.ok m' → MapInv sub m → MapInv sub m') ∧
    (∀ (d : List (String × Cls)) (st st' : CtxState Cls),
      NameClassMapContext.enter sub d st = Except.ok st' →
      MapInv sub st.nameclassmap → MapInv sub st'.nameclassmap) ∧
    (∀ (exc : ExcInfo) (st st' : CtxState Cls) (b : Bool),
      NameClassMapContext.exitCM sub exc st = Except.ok (st', b) →
      MapInv sub st.nameclassmap → MapInv sub st'.nameclassmap) ∧
    (∀ (m : NameClassMap Cls) (keys : List String) (c : Cls),
      sub m._default m._default = true → MapInv sub m →
      NameClassMap.find m keys = Except.ok c → sub c m._default = true) := by
  refine ⟨?_, ?_, ?_, ?_, ?_, ?_⟩
  · intro m k v h
    unfold NameClassMap.setitem
    rw [h]
    rfl
  · intro m m' k v h hinv
    exact NameClassMap.setitem_inv h hinv
  · intro m m' k h hinv
    exact NameClassMap.delitem_inv h hinv
  · intro d st st' h hinv
    unfold NameClassMapContext.enter at h
    cases hel : NameClassMapContext.enterLoop sub d st.nameclassmap st.keep with
    | error e => rw [hel] at h; cases h
    | ok p =>
      obtain ⟨m2, keep2⟩ := p
      rw [hel] at h
      have hst : st' = ⟨m2, keep2⟩ := (Except.ok.inj h).symm
      rw [hst]
      exact NameClassMapContext.enterLoop_inv sub d st.nameclassmap st.keep m2 keep2 hel hinv
  · intro exc st st' b h hinv
    unfold NameClassMapContext.exitCM at h
    cases hel : NameClassMapContext.exitLoop sub st.keep st.nameclassmap with
    | error e =>
      rw [hel] at h
      cases exc <;> cases h
    | ok m2 =>
      rw [hel] at h
      have hst : st' = ⟨m2, st.keep⟩ := by
        cases exc <;> exact (congrArg Prod.fst (Except.ok.inj h)).symm
      rw [hst]
      exact NameClassMapContext.exitLoop_inv sub st.keep st.nameclassmap m2 hel hinv
  · intro m keys c hrefl hinv h
    unfold NameClassMap.find at h
    cases hk : NameClassMap.find_key m keys with
    | none =>
      rw [hk] at h
      cases Except.ok.inj h
      exact hrefl
    | some k =>
      rw [hk] at h
      dsimp only at h
      by_cases hke : k = ""
      · rw [if_neg (fun hh => hh hke)] at h
        cases Except.ok.inj h
        exact hrefl
      · rw [if_pos hke] at h
        unfold NameClassMap.getitem at h
        cases hm : m._map k with
        | some v =>
          rw [hm] at h
          cases Except.ok.inj h
          exact hinv k _ hm
        | none => rw [hm] at h; cases h

/-- Witness for C10: inserting the unrelated class outsider into a resolver
whose default is rs4Default is rejected with AssertionError, and on the
concrete C1 scenario resolver find returns a subclass of the default. -/
theorem C10_subclass_invariant_witness :
    NameClassMap.setitem subC c1_st0.nameclassmap "A" RCls.outsider =
      Except.error PyErr.assertionError ∧
    subC RCls.clsX c1_st0.nameclassmap._default = true := by
  constructor
  · exact (C10_subclass_invariant subC).1 c1_st0.nameclassmap "A" RCls.outsider (by decide)
  · exact (C10_subclass_invariant subC).2.2.2.2.2 c1_st0.nameclassmap ["A"] RCls.clsX
      (by decide)
      (by
        intro k c h
        dsimp [c1_st0] at h
        split at h
        · cases h
          decide
        · cases h)
      (by decide)
